import Mathlib

/-!
# SSCC label generator: validation, record parsing, label layout and batch loop

A shallow embedding of the two programs of the repository:

* `etiquetas_sscc.c` (version 1.0.0, one SSCC per line), namespace `EtiquetasSscc`;
* `etiquetas_sscc_articulo.c` (version 1.2.0, `SSCC,PALET,ARTICULO` per line, at most
  `MAX_CSV_LINES` labels), namespace `EtiquetasSsccArticulo`.

Conventions of the embedding.

* A C string is the list of its characters before the terminating NUL (`CStr`).  A `char`
  buffer that may hold NUL characters in the middle is a `List Char`, and `c_str` is the
  C string a `char *` to its start denotes.
* `int` values are `Int`; every quantity stays far below `2^31` (the weighted sum is at
  most `17 * 9 * 3`, the line counter at most `1000`), so no wrap-around can occur.
  `%` on `int` is C's truncating remainder, `Int.tmod`.
* `HPDF_REAL` quantities are exact rationals.
* The PDF document is the list of the pages added to it, one `Label` per call of
  `create_label`; `stderr` is the list of the messages written to it, one per `fprintf`.
  Barcode rasterisation, PNG staging and the PDF writer are external collaborators that
  are taken to succeed; the one value the layout needs from them, the rendered width of
  the human-readable text, is the parameter `HPDF_Page_TextWidth`.
* An input file is the list of its characters; `fgets` consumes a prefix of it.
-/

/-- A C string: the characters before the terminating NUL. -/
abbrev CStr := List Char

/-- The NUL character that terminates a C string. -/
def NUL : Char := Char.ofNat 0

/-- The newline character. -/
def NL : Char := Char.ofNat 10

/-- The C string denoted by a pointer to the start of a buffer: everything before the
first NUL. -/
def c_str (buf : List Char) : CStr := buf.takeWhile (fun c => c != NUL)

/-- The character `s[i]` of a C string, for `i ≤ strlen s` (index `strlen s` holds the
terminating NUL). -/
def char_at (s : CStr) (i : Nat) : Char := s.getD i NUL

/-- Library function `strlen`. -/
def strlen (s : CStr) : Nat := s.length

/-- Library function `isdigit` (in the C locale): the ten characters `'0'` to `'9'`. -/
def isdigit (c : Char) : Bool := decide ('0' ≤ c ∧ c ≤ '9')

/-- Library function `strcspn`: length of the longest prefix of `s` free of characters
of `reject`. -/
def strcspn (s : CStr) (reject : List Char) : Nat :=
  (s.takeWhile (fun c => !reject.contains c)).length

/-- Worker of `fgets`: read at most `n` characters from the stream, stopping after a
newline or at end of file.  Returns the characters stored and the rest of the stream. -/
def fgets_read : Nat → List Char → List Char × List Char
  | 0, stream => ([], stream)
  | _ + 1, [] => ([], [])
  | n + 1, c :: stream =>
    if c = NL then ([c], stream)
    else ((c :: (fgets_read n stream).1), (fgets_read n stream).2)

/-- Library function `fgets(buf, size, stream)`: `none` is the NULL returned at end of
file when no character was read; otherwise the characters stored in the buffer (at most
`size - 1`) and the rest of the stream. -/
def fgets (size : Nat) (stream : List Char) : Option (List Char × List Char) :=
  if stream = [] then none else some (fgets_read (size - 1) stream)

/-- Library function `strtok(s, delim)`, with the saved position made explicit: skip the
leading delimiters; if nothing is left return NULL (`none`); otherwise the token is the
longest delimiter-free prefix, and the saved position is just after the delimiter that
ended it (or the end of the string).  `strtok(NULL, delim)` is `strtok saved delim`. -/
def strtok (s : CStr) (delim : List Char) : Option CStr × CStr :=
  let start := s.dropWhile (fun c => delim.contains c)
  if start = [] then (none, [])
  else (some (start.takeWhile (fun c => !delim.contains c)),
        (start.dropWhile (fun c => !delim.contains c)).drop 1)

/-- Library function `snprintf(buf, size, ...)` applied to the expanded format: the
buffer receives at most `size - 1` characters. -/
def snprintf (size : Nat) (expanded : List Char) : CStr := expanded.take (size - 1)

/-- The statement `line[strcspn(line, "\n")] = 0;` applied to the buffer filled by
`fgets`: the C string now ends at the first newline. -/
def strip_newline (buf : List Char) : CStr :=
  (c_str buf).take (strcspn (c_str buf) [NL])

/-- Macro `A6_WIDTH`: 148 mm in points. -/
def A6_WIDTH : ℚ := 148.0 * 2.83464567

/-- Macro `A6_HEIGHT`: 105 mm in points. -/
def A6_HEIGHT : ℚ := 105.0 * 2.83464567

/-- A rectangle handed to the PDF library: lower-left corner, width and height. -/
structure Rect where
  x : ℚ
  y : ℚ
  width : ℚ
  height : ℚ

/-- What `create_label` of `etiquetas_sscc.c` puts on the page it adds. -/
structure Label where
  /-- the local `formatted_sscc`, drawn with `HPDF_Page_TextOut` at size 18 -/
  formatted_sscc : CStr
  /-- the local `filename` of the staged barcode image -/
  filename : CStr
  /-- argument of `HPDF_Page_SetWidth` -/
  page_width : ℚ
  /-- argument of `HPDF_Page_SetHeight` -/
  page_height : ℚ
  /-- arguments `barcode_x, barcode_y, barcode_width, barcode_height` of `HPDF_Page_DrawImage` -/
  barcode : Rect
  /-- x position of the human-readable text -/
  text_x : ℚ
  /-- y position of the human-readable text -/
  text_y : ℚ
  /-- arguments of `HPDF_Page_Rectangle` -/
  box : Rect

/-- The page of `etiquetas_sscc_articulo.c`: the same drawing, then the PALET text at
`(30, 60)` and the ARTICULO text at `(30, 40)`; either pointer may be NULL (`none`). -/
structure LabelArticulo extends Label where
  palet : Option CStr
  articulo : Option CStr

/-- The observable state the batch loop acts on. -/
structure World (L : Type) where
  /-- pages added to the PDF document, in order -/
  pdf : List L
  /-- messages written to `stderr`, in order -/
  stderr : List CStr

/-- The digit value `sscc[i] - '0'`. -/
def digit_at (sscc : CStr) (i : Nat) : Int :=
  ((char_at sscc i).toNat : Int) - (('0' : Char).toNat : Int)

/-- One iteration of the loop `for (int i = 18; i >= 2; i--)` of `is_valid_sscc`, on the
state `(sum, multiplier)`. -/
def check_step (sscc : CStr) (st : Int × Int) (i : Nat) : Int × Int :=
  (st.1 + digit_at sscc i * st.2, if st.2 = 3 then 1 else 3)

/-- The local `sum` of `is_valid_sscc` after the loop over `i = 18, 17, ..., 2`, started
with `sum = 0` and `multiplier = 3`. -/
def check_sum (sscc : CStr) : Int :=
  ([18, 17, 16, 15, 14, 13, 12, 11, 10, 9, 8, 7, 6, 5, 4, 3, 2].foldl (check_step sscc) (0, 3)).1

/-- The local `check_digit_calculated` of `is_valid_sscc`: `(10 - (sum % 10)) % 10`. -/
def check_digit_calculated (sscc : CStr) : Int :=
  Int.tmod (10 - Int.tmod (check_sum sscc) 10) 10

/-- The local `check_digit_provided` of `is_valid_sscc`: `sscc[19] - '0'`. -/
def check_digit_provided (sscc : CStr) : Int := digit_at sscc 19

/-- The loop `for (int i = 0; i < 20; i++) if (!isdigit(sscc[i])) return 0;`: true when
the loop returns early. -/
def has_non_digit (sscc : CStr) : Bool :=
  (List.range 20).any (fun i => !isdigit (char_at sscc i))

namespace EtiquetasSscc

/-- Function `is_valid_sscc` of `etiquetas_sscc.c`. -/
def is_valid_sscc (sscc : CStr) : Int :=
  if strlen sscc ≠ 20 then 0
  else if has_non_digit sscc then 0
  else if check_digit_calculated sscc = check_digit_provided sscc then 1
  else 0

/-- Function `create_label` of `etiquetas_sscc.c`.  The format `"(%.2s)%s"` is applied
to `sscc` and `sscc + 2`; the program calls it only on strings accepted by
`is_valid_sscc`, which have 20 characters. -/
def create_label (HPDF_Page_TextWidth : CStr → ℚ) (sscc : CStr) : Label :=
  let formatted_sscc := snprintf 23 (['('] ++ sscc.take 2 ++ [')'] ++ sscc.drop 2)
  let filename := snprintf 64 ("barcode_".toList ++ sscc ++ ".png".toList)
  let barcode_width := A6_WIDTH * 0.8
  let barcode_height := A6_HEIGHT * 0.25
  let barcode_x := (A6_WIDTH - barcode_width) / 2
  let barcode_y := A6_HEIGHT - barcode_height - 30
  let text_width := HPDF_Page_TextWidth formatted_sscc
  { formatted_sscc := formatted_sscc
    filename := filename
    page_width := A6_WIDTH
    page_height := A6_HEIGHT
    barcode := ⟨barcode_x, barcode_y, barcode_width, barcode_height⟩
    text_x := (A6_WIDTH - text_width) / 2
    text_y := barcode_y - 20
    box := ⟨20, 30, A6_WIDTH - 40, A6_HEIGHT * 0.40⟩ }

/-- The body of the `while` loop of `process_csv_and_generate_labels`, applied to the
line with its newline removed: the message written to `stderr` (`Except.error`) or the
page added (`Except.ok`). -/
def line_outcome (HPDF_Page_TextWidth : CStr → ℚ) (line : CStr) : Except CStr Label :=
  if is_valid_sscc line = 0 then
    .error ("Invalid SSCC: ".toList ++ line ++ [NL])
  else
    .ok (create_label HPDF_Page_TextWidth line)

/-- The loop `while (fgets(line, sizeof(line), csv_file)) ...` of
`process_csv_and_generate_labels`; `none` when the fuel runs out. -/
def process_loop (HPDF_Page_TextWidth : CStr → ℚ) :
    Nat → List Char → World Label → Option (World Label)
  | 0, _, _ => none
  | fuel + 1, csv_file, w =>
    match fgets 256 csv_file with
    | none => some w
    | some (buf, rest) =>
      match line_outcome HPDF_Page_TextWidth (strip_newline buf) with
      | .error msg => process_loop HPDF_Page_TextWidth fuel rest { w with stderr := w.stderr ++ [msg] }
      | .ok label => process_loop HPDF_Page_TextWidth fuel rest { w with pdf := w.pdf ++ [label] }

/-- Function `process_csv_and_generate_labels` of `etiquetas_sscc.c`.  The file is
`Except.error e` when `fopen` fails (`e` is the system's error text, printed by
`perror`), `Except.ok contents` otherwise.  Each iteration consumes at least one
character, so `contents.length + 1` iterations are always enough. -/
def process_csv_and_generate_labels (HPDF_Page_TextWidth : CStr → ℚ)
    (csv_file : Except CStr (List Char)) (w : World Label) : Option (World Label) :=
  match csv_file with
  | .error e =>
    some { w with stderr := w.stderr ++ ["No se pudo abrir el archivo CSV: ".toList ++ e ++ [NL]] }
  | .ok contents => process_loop HPDF_Page_TextWidth (contents.length + 1) contents w

end EtiquetasSscc

namespace EtiquetasSsccArticulo

/-- Macro `MAX_CSV_LINES`. -/
def MAX_CSV_LINES : Int := 1000

/-- Function `is_valid_sscc` of `etiquetas_sscc_articulo.c`; its last statement returns
the value of the comparison `check_digit_calculated == check_digit_provided`. -/
def is_valid_sscc (sscc : CStr) : Int :=
  if strlen sscc ≠ 20 then 0
  else if has_non_digit sscc then 0
  else (if check_digit_calculated sscc = check_digit_provided sscc then 1 else 0)

/-- Function `create_label` of `etiquetas_sscc_articulo.c`.  The format `"(%.2s)%s"` is
applied to `sscc` and `sscc + 2`; the program calls it only on strings accepted by
`is_valid_sscc`, which have 20 characters. -/
def create_label (HPDF_Page_TextWidth : CStr → ℚ) (sscc : CStr)
    (palet articulo : Option CStr) : LabelArticulo :=
  let formatted_sscc := snprintf 23 (['('] ++ sscc.take 2 ++ [')'] ++ sscc.drop 2)
  let filename := snprintf 64 ("barcode_".toList ++ sscc ++ ".png".toList)
  let barcode_width := A6_WIDTH * 0.8
  let barcode_height := A6_HEIGHT * 0.25
  let barcode_x := (A6_WIDTH - barcode_width) / 2
  let barcode_y := A6_HEIGHT - barcode_height - 30
  let text_width := HPDF_Page_TextWidth formatted_sscc
  { formatted_sscc := formatted_sscc
    filename := filename
    page_width := A6_WIDTH
    page_height := A6_HEIGHT
    barcode := ⟨barcode_x, barcode_y, barcode_width, barcode_height⟩
    text_x := (A6_WIDTH - text_width) / 2
    text_y := barcode_y - 20
    box := ⟨20, 30, A6_WIDTH - 40, A6_HEIGHT * 0.40⟩
    palet := palet
    articulo := articulo }

/-- The three calls `strtok(line, ",")`, `strtok(NULL, ",")`, `strtok(NULL, ",")` of
`process_csv_and_generate_labels`: the pointers `sscc`, `palet` and `articulo`. -/
def split_line (line : CStr) : Option CStr × Option CStr × Option CStr :=
  let r1 := strtok line [',']
  let r2 := strtok r1.2 [',']
  let r3 := strtok r2.2 [',']
  (r1.1, r2.1, r3.1)

/-- The body of the `while` loop of `process_csv_and_generate_labels`, applied to the
line with its newline removed: the message written to `stderr` (`Except.error`) or the
page added (`Except.ok`). -/
def line_outcome (HPDF_Page_TextWidth : CStr → ℚ) (line : CStr) : Except CStr LabelArticulo :=
  match split_line line with
  | (none, _, _) => .error ("Línea CSV inválida: ".toList ++ line ++ [NL])
  | (some sscc, palet, articulo) =>
    if is_valid_sscc sscc = 0 then
      .error ("Invalid SSCC: ".toList ++ sscc ++ [NL])
    else
      .ok (create_label HPDF_Page_TextWidth sscc palet articulo)

/-- The loop `while (fgets(line, sizeof(line), csv_file) && line_count < MAX_CSV_LINES)`
of `process_csv_and_generate_labels`, on the state `(csv_file, line_count, world)`;
`none` when the fuel runs out.  `fgets` is evaluated before the counter is tested. -/
def process_loop (HPDF_Page_TextWidth : CStr → ℚ) :
    Nat → List Char → Int → World LabelArticulo → Option (World LabelArticulo)
  | 0, _, _, _ => none
  | fuel + 1, csv_file, line_count, w =>
    match fgets 256 csv_file with
    | none => some w
    | some (buf, rest) =>
      if line_count < MAX_CSV_LINES then
        match line_outcome HPDF_Page_TextWidth (strip_newline buf) with
        | .error msg =>
          process_loop HPDF_Page_TextWidth fuel rest line_count
            { w with stderr := w.stderr ++ [msg] }
        | .ok label =>
          process_loop HPDF_Page_TextWidth fuel rest (line_count + 1)
            { w with pdf := w.pdf ++ [label] }
      else some w

/-- Function `process_csv_and_generate_labels` of `etiquetas_sscc_articulo.c`.  The file
is `Except.error e` when `fopen` fails (`e` is the system's error text, printed by
`perror`), `Except.ok contents` otherwise.  Each iteration consumes at least one
character, so `contents.length + 1` iterations are always enough. -/
def process_csv_and_generate_labels (HPDF_Page_TextWidth : CStr → ℚ)
    (csv_file : Except CStr (List Char)) (w : World LabelArticulo) :
    Option (World LabelArticulo) :=
  match csv_file with
  | .error e =>
    some { w with stderr := w.stderr ++ ["No se pudo abrir el archivo CSV: ".toList ++ e ++ [NL]] }
  | .ok contents => process_loop HPDF_Page_TextWidth (contents.length + 1) contents 0 w

end EtiquetasSsccArticulo

/-- The weight the specification gives to index `i`: 3 when `18 - i` is even, 1 when it
is odd. -/
def spec_multiplier (i : Nat) : Int := if (18 - i) % 2 = 0 then 3 else 1

/-- The weighted sum of the specification: the digits at indices 2 to 18, each times its
weight. -/
def spec_sum (s : CStr) : Int := ∑ i ∈ Finset.Icc 2 18, digit_at s i * spec_multiplier i

/-- A rectangle lies within the page `[0, W] x [0, H]`. -/
def Rect.within_page (r : Rect) (W H : ℚ) : Prop :=
  0 ≤ r.x ∧ 0 ≤ r.y ∧ r.x + r.width ≤ W ∧ r.y + r.height ≤ H

/-- The geometry the specification states for a label on a page `W x H`: the barcode
rectangle and the outline rectangle are the stated ones, both lie within the page, and
the barcode rectangle has equal left and right margins. -/
def Label.geometry_ok (l : Label) (W H : ℚ) : Prop :=
  l.page_width = W ∧ l.page_height = H ∧
  l.barcode.x = (W - 0.8 * W) / 2 ∧ l.barcode.y = H - 0.25 * H - 30 ∧
  l.barcode.width = 0.8 * W ∧ l.barcode.height = 0.25 * H ∧
  l.box.x = 20 ∧ l.box.y = 30 ∧ l.box.width = W - 40 ∧ l.box.height = 0.40 * H ∧
  l.barcode.within_page W H ∧ l.box.within_page W H ∧
  l.barcode.x - 0 = W - (l.barcode.x + l.barcode.width)

/-- The contents of a text file whose lines are `lines`, each terminated by a newline,
followed by `last`, a final line without terminator (empty when the file ends with a
newline or is empty). -/
def file_content : List (List Char) → List Char → List Char
  | [], last => last
  | l :: ls, last => l ++ NL :: file_content ls last

/-- The lines of the file `file_content lines last`, in order. -/
def file_lines (lines : List (List Char)) (last : List Char) : List (List Char) :=
  if last = [] then lines else lines ++ [last]

/-- The page of an accepted line, `none` for a rejected line. -/
def label_of {L : Type} : Except CStr L → Option L
  | .ok label => some label
  | .error _ => none

/-- The diagnostic of a rejected line, `none` for an accepted line. -/
def diag_of {L : Type} : Except CStr L → Option CStr
  | .ok _ => none
  | .error msg => some msg

/-- The two output sequences after the lines `lines` have each been given their
outcome, in order: the pages of the accepted lines are appended to the document and the
diagnostics of the rejected lines to `stderr`. -/
def run_lines {L : Type} (outcome : CStr → Except CStr L) (lines : List CStr)
    (w : World L) : World L :=
  { pdf := w.pdf ++ lines.filterMap (fun l => label_of (outcome l))
    stderr := w.stderr ++ lines.filterMap (fun l => diag_of (outcome l)) }

/-- The lines of the file `file_content lines last` as the program sees them: the C
string held by the buffer `line` after the newline has been removed. -/
def seen_lines (lines : List (List Char)) (last : List Char) : List CStr :=
  (file_lines lines last).map c_str

/-- An empty document and an empty `stderr`. -/
def World.empty {L : Type} : World L := ⟨[], []⟩

/-- A code with a correct check digit. -/
def sscc_ok : CStr := "34012345678901234560".toList

/-- The lines of any file as the loop `while (fgets(line, sizeof(line), csv_file))` reads
them, each with its newline removed (a line of 255 characters or more arrives in
pieces); `fuel` bounds the number of reads. -/
def fgets_lines : Nat → List Char → List CStr
  | 0, _ => []
  | fuel + 1, stream =>
    match fgets 256 stream with
    | none => []
    | some (buf, rest) => strip_newline buf :: fgets_lines fuel rest

/-- The ten digit characters. -/
def digit_chars : List Char := ['0', '1', '2', '3', '4', '5', '6', '7', '8', '9']

/-- The single-digit substitutions of the specification: every pair `(i, d)` of an
index `i` in `2..19` and a digit `d` different from the character of `c` at `i`. -/
def substitutions (c : CStr) : List (Nat × Char) :=
  (List.range' 2 18).flatMap
    (fun i => (digit_chars.filter (fun d => d != char_at c i)).map (fun d => (i, d)))

/-- The string `c` with the character at index `p.1` replaced by `p.2`. -/
def substitute (c : CStr) (p : Nat × Char) : CStr := c.set p.1 p.2

/-- The substitutions that change the check digit computed from indices `2..18`. -/
def detected_substitutions (c : CStr) : List (Nat × Char) :=
  (substitutions c).filter
    (fun p => check_digit_calculated (substitute c p) != check_digit_calculated c)

theorem isdigit_iff (c : Char) : isdigit c = true ↔ 48 ≤ c.toNat ∧ c.toNat ≤ 57 := by
  unfold isdigit
  simp only [decide_eq_true_eq]
  rfl

theorem check_sum_eq (s : CStr) :
    check_sum s = digit_at s 18 * 3 + digit_at s 17 * 1 + digit_at s 16 * 3 + digit_at s 15 * 1
      + digit_at s 14 * 3 + digit_at s 13 * 1 + digit_at s 12 * 3 + digit_at s 11 * 1
      + digit_at s 10 * 3 + digit_at s 9 * 1 + digit_at s 8 * 3 + digit_at s 7 * 1
      + digit_at s 6 * 3 + digit_at s 5 * 1 + digit_at s 4 * 3 + digit_at s 3 * 1
      + digit_at s 2 * 3 := by
  simp [check_sum, check_step]

theorem spec_sum_eq (s : CStr) :
    spec_sum s = digit_at s 18 * 3 + digit_at s 17 * 1 + digit_at s 16 * 3 + digit_at s 15 * 1
      + digit_at s 14 * 3 + digit_at s 13 * 1 + digit_at s 12 * 3 + digit_at s 11 * 1
      + digit_at s 10 * 3 + digit_at s 9 * 1 + digit_at s 8 * 3 + digit_at s 7 * 1
      + digit_at s 6 * 3 + digit_at s 5 * 1 + digit_at s 4 * 3 + digit_at s 3 * 1
      + digit_at s 2 * 3 := by
  have h : Finset.Icc 2 18 = Finset.Ico 2 19 := by decide
  rw [spec_sum, h, Finset.sum_Ico_eq_sum_range]
  simp [Finset.sum_range_succ, spec_multiplier]
  ring

theorem digit_at_bounds (s : CStr) (i : Nat) (h : isdigit (char_at s i) = true) :
    0 ≤ digit_at s i ∧ digit_at s i ≤ 9 := by
  have h1 := (isdigit_iff _).1 h
  have h0 : ('0' : Char).toNat = 48 := by decide
  unfold digit_at
  rw [h0]
  omega

theorem char_at_mem (s : CStr) (i : Nat) (h : i < s.length) : char_at s i ∈ s := by
  unfold char_at
  rw [List.getD_eq_getElem _ _ h]
  exact List.getElem_mem _

theorem has_non_digit_eq_false (s : CStr) (hlen : s.length = 20)
    (hdig : ∀ c ∈ s, isdigit c = true) : has_non_digit s = false := by
  unfold has_non_digit
  rw [List.any_eq_false]
  intro i hi
  have hi2 : i < s.length := by
    rw [hlen]; exact List.mem_range.1 hi
  simp [hdig _ (char_at_mem s i hi2)]

theorem has_non_digit_eq_true (s : CStr) (hlen : s.length = 20)
    (c : Char) (hc : c ∈ s) (hnd : isdigit c = false) : has_non_digit s = true := by
  unfold has_non_digit
  rw [List.any_eq_true]
  obtain ⟨i, hi, rfl⟩ := List.getElem_of_mem hc
  refine ⟨i, List.mem_range.2 (by omega), ?_⟩
  unfold char_at
  rw [List.getD_eq_getElem _ _ hi]
  simp [hnd]

theorem check_sum_nonneg (s : CStr) (hlen : s.length = 20)
    (hdig : ∀ c ∈ s, isdigit c = true) : 0 ≤ check_sum s := by
  have hb : ∀ i, i < 20 → 0 ≤ digit_at s i := fun i hi =>
    (digit_at_bounds s i (hdig _ (char_at_mem s i (by omega)))).1
  rw [check_sum_eq]
  have := hb 18 (by omega); have := hb 17 (by omega); have := hb 16 (by omega)
  have := hb 15 (by omega); have := hb 14 (by omega); have := hb 13 (by omega)
  have := hb 12 (by omega); have := hb 11 (by omega); have := hb 10 (by omega)
  have := hb 9 (by omega); have := hb 8 (by omega); have := hb 7 (by omega)
  have := hb 6 (by omega); have := hb 5 (by omega); have := hb 4 (by omega)
  have := hb 3 (by omega); have := hb 2 (by omega)
  omega

theorem check_digit_calculated_eq (s : CStr) (h : 0 ≤ check_sum s) :
    check_digit_calculated s = (10 - check_sum s % 10) % 10 := by
  unfold check_digit_calculated
  rw [Int.tmod_eq_emod h (by norm_num)]
  rw [Int.tmod_eq_emod (by omega) (by norm_num)]

theorem is_valid_sscc_eq_one_iff (s : CStr) (hlen : s.length = 20)
    (hdig : ∀ c ∈ s, isdigit c = true) :
    EtiquetasSscc.is_valid_sscc s = 1 ↔ digit_at s 19 = (10 - spec_sum s % 10) % 10 := by
  have hs : spec_sum s = check_sum s := by rw [spec_sum_eq, check_sum_eq]
  unfold EtiquetasSscc.is_valid_sscc
  rw [has_non_digit_eq_false s hlen hdig, hs,
    ← check_digit_calculated_eq s (check_sum_nonneg s hlen hdig)]
  simp only [strlen, hlen, ne_eq, not_true_eq_false, if_false, check_digit_provided,
    Bool.false_eq_true]
  constructor
  · intro h
    by_contra hne
    rw [if_neg (fun h2 => hne h2.symm)] at h
    exact absurd h (by decide)
  · intro h
    rw [if_pos h.symm]

/-- C1: for every string of exactly 20 digit characters, `is_valid_sscc` (of either
program) returns 1 exactly when the digit at index 19 equals `(10 - (sum mod 10)) mod 10`,
where `sum` adds the digits at indices 2 to 18, each times 3 when `18 - i` is even and
times 1 when it is odd; the digits at indices 0 and 1 do not enter the sum. -/
theorem is_valid_sscc_check_digit (s : CStr) (hlen : s.length = 20)
    (hdig : ∀ c ∈ s, isdigit c = true) :
    (EtiquetasSscc.is_valid_sscc s = 1 ↔ digit_at s 19 = (10 - spec_sum s % 10) % 10) ∧
    (EtiquetasSsccArticulo.is_valid_sscc s = 1 ↔
      digit_at s 19 = (10 - spec_sum s % 10) % 10) :=
  ⟨is_valid_sscc_eq_one_iff s hlen hdig, is_valid_sscc_eq_one_iff s hlen hdig⟩

/-- Witness for C1: `34012345678901234560` has 20 characters, all digits, and the
equivalence holds of it. -/
theorem is_valid_sscc_check_digit_witness :
    ("34012345678901234560".toList.length = 20 ∧
      ∀ c ∈ "34012345678901234560".toList, isdigit c = true) ∧
    ((EtiquetasSscc.is_valid_sscc "34012345678901234560".toList = 1 ↔
        digit_at "34012345678901234560".toList 19
          = (10 - spec_sum "34012345678901234560".toList % 10) % 10) ∧
     (EtiquetasSsccArticulo.is_valid_sscc "34012345678901234560".toList = 1 ↔
        digit_at "34012345678901234560".toList 19
          = (10 - spec_sum "34012345678901234560".toList % 10) % 10)) :=
  ⟨⟨by decide, by decide⟩,
   is_valid_sscc_check_digit "34012345678901234560".toList (by decide) (by decide)⟩

/-- C2: `is_valid_sscc` (of either program) returns 0 for every string whose length is
not 20, and for every string of length 20 that holds a character outside `'0'..'9'`,
whatever the other characters are. -/
theorem is_valid_sscc_rejects_malformed (s : CStr) :
    (s.length ≠ 20 →
      EtiquetasSscc.is_valid_sscc s = 0 ∧ EtiquetasSsccArticulo.is_valid_sscc s = 0) ∧
    (s.length = 20 → (∃ c ∈ s, isdigit c = false) →
      EtiquetasSscc.is_valid_sscc s = 0 ∧ EtiquetasSsccArticulo.is_valid_sscc s = 0) := by
  constructor
  · intro h
    simp [EtiquetasSscc.is_valid_sscc, EtiquetasSsccArticulo.is_valid_sscc, strlen, h]
  · rintro h ⟨c, hc, hnd⟩
    simp [EtiquetasSscc.is_valid_sscc, EtiquetasSsccArticulo.is_valid_sscc, strlen, h,
      has_non_digit_eq_true s h c hc hnd]

/-- C3 (as amended): `is_valid_sscc` returns 0 for `34012345678901234567` and 1 for
`34012345678901234560`: the weighted sum of the digits at indices 2 to 18 is 130, so the
check digit computed for both is 0, not 7. -/
theorem is_valid_sscc_scenario :
    check_sum "34012345678901234567".toList = 130 ∧
    check_digit_calculated "34012345678901234567".toList = 0 ∧
    check_digit_calculated "34012345678901234560".toList = 0 ∧
    EtiquetasSscc.is_valid_sscc "34012345678901234567".toList = 0 ∧
    EtiquetasSscc.is_valid_sscc "34012345678901234560".toList = 1 ∧
    EtiquetasSsccArticulo.is_valid_sscc "34012345678901234567".toList = 0 ∧
    EtiquetasSsccArticulo.is_valid_sscc "34012345678901234560".toList = 1 := by
  decide

/-- C3, counterexample: it is not the case that `is_valid_sscc` accepts
`34012345678901234567` and rejects `34012345678901234560`, in either program; neither
half of the scenario holds. -/
theorem is_valid_sscc_scenario_fails :
    ¬ (EtiquetasSscc.is_valid_sscc "34012345678901234567".toList = 1 ∧
       EtiquetasSscc.is_valid_sscc "34012345678901234560".toList = 0) ∧
    ¬ (EtiquetasSsccArticulo.is_valid_sscc "34012345678901234567".toList = 1 ∧
       EtiquetasSsccArticulo.is_valid_sscc "34012345678901234560".toList = 0) ∧
    EtiquetasSscc.is_valid_sscc "34012345678901234567".toList ≠ 1 ∧
    EtiquetasSscc.is_valid_sscc "34012345678901234560".toList ≠ 0 := by
  decide

/-- Witness for C2: `123` has the wrong length and `3401234567890123456X` holds a
non-digit; both are rejected. -/
theorem is_valid_sscc_rejects_malformed_witness :
    ("123".toList.length ≠ 20 ∧
      EtiquetasSscc.is_valid_sscc "123".toList = 0 ∧
      EtiquetasSsccArticulo.is_valid_sscc "123".toList = 0) ∧
    ("3401234567890123456X".toList.length = 20 ∧
      (∃ c ∈ "3401234567890123456X".toList, isdigit c = false) ∧
      EtiquetasSscc.is_valid_sscc "3401234567890123456X".toList = 0 ∧
      EtiquetasSsccArticulo.is_valid_sscc "3401234567890123456X".toList = 0) :=
  ⟨⟨by decide, (is_valid_sscc_rejects_malformed "123".toList).1 (by decide)⟩,
   ⟨by decide, ⟨'X', by decide, by decide⟩,
    (is_valid_sscc_rejects_malformed "3401234567890123456X".toList).2 (by decide)
      ⟨'X', by decide, by decide⟩⟩⟩

theorem articulo_create_label_toLabel (tw : CStr → ℚ) (sscc : CStr) (palet articulo : Option CStr) :
    (EtiquetasSsccArticulo.create_label tw sscc palet articulo).toLabel
      = EtiquetasSscc.create_label tw sscc := rfl

theorem formatted_sscc_eq (tw : CStr → ℚ) (sscc : CStr) (hlen : sscc.length = 20) :
    (EtiquetasSscc.create_label tw sscc).formatted_sscc
        = ['('] ++ sscc.take 2 ++ [')'] ++ sscc.drop 2 ∧
    (EtiquetasSscc.create_label tw sscc).formatted_sscc.length = 22 := by
  have h : (['('] ++ sscc.take 2 ++ [')'] ++ sscc.drop 2).length = 22 := by
    simp [hlen]
  have h2 : (EtiquetasSscc.create_label tw sscc).formatted_sscc
        = ['('] ++ sscc.take 2 ++ [')'] ++ sscc.drop 2 := by
    show snprintf 23 _ = _
    unfold snprintf
    exact List.take_of_length_le (by rw [h])
  exact ⟨h2, by rw [h2, h]⟩

/-- C7: for every code of exactly 20 characters, the human-readable string built by
`create_label` (of either program) is `(`, the first two characters, `)`, then the other
18 characters in order; it has 22 characters, so the 23-byte buffer `formatted_sscc`
holds it without truncation; `34012345678901234567` gives `(34)012345678901234567`. -/
theorem create_label_formatted_sscc (tw : CStr → ℚ) (sscc : CStr)
    (palet articulo : Option CStr) (hlen : sscc.length = 20) :
    ((EtiquetasSscc.create_label tw sscc).formatted_sscc
        = ['('] ++ sscc.take 2 ++ [')'] ++ sscc.drop 2 ∧
      (EtiquetasSscc.create_label tw sscc).formatted_sscc.length = 22) ∧
    ((EtiquetasSsccArticulo.create_label tw sscc palet articulo).formatted_sscc
        = ['('] ++ sscc.take 2 ++ [')'] ++ sscc.drop 2 ∧
      (EtiquetasSsccArticulo.create_label tw sscc palet articulo).formatted_sscc.length = 22) ∧
    22 < 23 ∧
    (EtiquetasSscc.create_label tw "34012345678901234567".toList).formatted_sscc
      = "(34)012345678901234567".toList ∧
    (EtiquetasSsccArticulo.create_label tw "34012345678901234567".toList
        palet articulo).formatted_sscc
      = "(34)012345678901234567".toList :=
  ⟨formatted_sscc_eq tw sscc hlen, formatted_sscc_eq tw sscc hlen, by decide, rfl, rfl⟩

/-- Witness for C7: `34012345678901234560` has 20 characters and is formatted as
stated. -/
theorem create_label_formatted_sscc_witness :
    "34012345678901234560".toList.length = 20 ∧
    (EtiquetasSscc.create_label (fun _ => 0) "34012345678901234560".toList).formatted_sscc
      = ['('] ++ "34012345678901234560".toList.take 2 ++ [')']
        ++ "34012345678901234560".toList.drop 2 :=
  ⟨by decide,
   (create_label_formatted_sscc (fun _ => 0) "34012345678901234560".toList none none
      (by decide)).1.1⟩

theorem create_label_geometry (tw : CStr → ℚ) (sscc : CStr) :
    (EtiquetasSscc.create_label tw sscc).geometry_ok (148 * 2.83464567) (105 * 2.83464567) := by
  simp only [Label.geometry_ok, Rect.within_page, EtiquetasSscc.create_label, A6_WIDTH,
    A6_HEIGHT]
  norm_num

/-- C10: with `W = 148 * 2.83464567` and `H = 105 * 2.83464567` as exact rationals, the
barcode rectangle and the outline rectangle computed by `create_label` (of either
program) are the stated ones, both lie within the page `[0, W] x [0, H]`, and the barcode
rectangle has equal left and right margins. -/
theorem create_label_rectangles_within_page (tw : CStr → ℚ) (sscc : CStr)
    (palet articulo : Option CStr) :
    (EtiquetasSscc.create_label tw sscc).geometry_ok (148 * 2.83464567) (105 * 2.83464567) ∧
    (EtiquetasSsccArticulo.create_label tw sscc palet articulo).toLabel.geometry_ok
      (148 * 2.83464567) (105 * 2.83464567) :=
  ⟨create_label_geometry tw sscc, create_label_geometry tw sscc⟩

theorem fgets_read_line (l rest : List Char) (n : Nat) (hnl : NL ∉ l) (hlen : l.length < n) :
    fgets_read n (l ++ NL :: rest) = (l ++ [NL], rest) := by
  induction l generalizing n with
  | nil =>
    obtain ⟨m, rfl⟩ : ∃ m, n = m + 1 := ⟨n - 1, by simp at hlen; omega⟩
    simp [fgets_read]
  | cons c l ih =>
    obtain ⟨m, rfl⟩ : ∃ m, n = m + 1 := ⟨n - 1, by simp at hlen; omega⟩
    have hc : c ≠ NL := fun h => hnl (by simp [h])
    have hl : NL ∉ l := fun h => hnl (by simp [h])
    have := ih m hl (by simp at hlen; omega)
    simp [fgets_read, hc, this]

theorem fgets_read_eof (l : List Char) (n : Nat) (hnl : NL ∉ l) (hlen : l.length ≤ n) :
    fgets_read n l = (l, []) := by
  induction l generalizing n with
  | nil => cases n <;> simp [fgets_read]
  | cons c l ih =>
    obtain ⟨m, rfl⟩ : ∃ m, n = m + 1 := ⟨n - 1, by simp at hlen; omega⟩
    have hc : c ≠ NL := fun h => hnl (by simp [h])
    have hl : NL ∉ l := fun h => hnl (by simp [h])
    have := ih m hl (by simp at hlen; omega)
    simp [fgets_read, hc, this]

theorem fgets_line (l rest : List Char) (hnl : NL ∉ l) (hlen : l.length < 255) :
    fgets 256 (l ++ NL :: rest) = some (l ++ [NL], rest) := by
  unfold fgets
  rw [if_neg (by simp), fgets_read_line l rest 255 hnl hlen]

theorem fgets_last (l : List Char) (hne : l ≠ []) (hnl : NL ∉ l) (hlen : l.length < 255) :
    fgets 256 l = some (l, []) := by
  unfold fgets
  rw [if_neg hne, fgets_read_eof l 255 hnl (by omega)]

theorem strip_newline_eq (buf : List Char) :
    strip_newline buf = buf.takeWhile (fun c => c != NUL && c != NL) := by
  unfold strip_newline c_str strcspn
  induction buf with
  | nil => rfl
  | cons c buf ih =>
    by_cases h0 : c = NUL
    · simp [h0]
    · by_cases h1 : c = NL
      · subst h1
        have hne : (NL != NUL) = true := by decide
        simp [List.takeWhile_cons, hne]
      · simp [List.takeWhile_cons, h0, h1]
        simpa using ih

theorem strip_newline_line (l : List Char) (hnl : NL ∉ l) :
    strip_newline (l ++ [NL]) = c_str l := by
  rw [strip_newline_eq]
  unfold c_str
  induction l with
  | nil => simp
  | cons c l ih =>
    have hc : c ≠ NL := fun h => hnl (by simp [h])
    have hl : NL ∉ l := fun h => hnl (by simp [h])
    by_cases h0 : c = NUL
    · simp [h0]
    · simp [List.takeWhile_cons, h0, hc]
      simpa using ih hl

theorem strip_newline_last (l : List Char) (hnl : NL ∉ l) :
    strip_newline l = c_str l := by
  rw [strip_newline_eq]
  unfold c_str
  induction l with
  | nil => simp
  | cons c l ih =>
    have hc : c ≠ NL := fun h => hnl (by simp [h])
    have hl : NL ∉ l := fun h => hnl (by simp [h])
    by_cases h0 : c = NUL
    · simp [h0]
    · simp [List.takeWhile_cons, h0, hc]
      simpa using ih hl

theorem file_lines_cons (l : List Char) (ls : List (List Char)) (last : List Char) :
    file_lines (l :: ls) last = l :: file_lines ls last := by
  unfold file_lines
  split <;> rfl

theorem file_content_length_cons (l : List Char) (ls : List (List Char)) (last : List Char) :
    (file_content (l :: ls) last).length = l.length + 1 + (file_content ls last).length := by
  simp [file_content]; omega

theorem fgets_read_rest_le (n : Nat) (stream : List Char) :
    (fgets_read n stream).2.length ≤ stream.length := by
  induction stream generalizing n with
  | nil => cases n <;> simp [fgets_read]
  | cons c stream ih =>
    cases n with
    | zero => simp [fgets_read]
    | succ n =>
      simp only [fgets_read]
      split
      · simp
      · have := ih n
        simp only [List.length_cons]
        omega

theorem fgets_rest_lt (stream buf rest : List Char) (h : fgets 256 stream = some (buf, rest)) :
    rest.length < stream.length := by
  unfold fgets at h
  cases stream with
  | nil => simp at h
  | cons c stream =>
    simp only [reduceCtorEq, if_false, Option.some.injEq] at h
    have h2 : rest = (fgets_read 255 (c :: stream)).2 := by rw [h]
    rw [h2]
    simp only [fgets_read]
    split
    · simp
    · have := fgets_read_rest_le 254 stream
      simp only [List.length_cons]
      omega

theorem run_lines_stderr {L : Type} (outcome : CStr → Except CStr L) (ls : List CStr)
    (w : World L) :
    (run_lines outcome ls w).stderr
      = w.stderr ++ ls.filterMap (fun l => diag_of (outcome l)) := rfl

/-- The lines read do not depend on the fuel, once there is more fuel than characters. -/
theorem fgets_lines_fuel_irrelevant :
    ∀ (fuel1 fuel2 : Nat) (stream : List Char), stream.length < fuel1 →
      stream.length < fuel2 → fgets_lines fuel1 stream = fgets_lines fuel2 stream := by
  intro fuel1
  induction fuel1 with
  | zero => intro fuel2 stream h; omega
  | succ f ih =>
    intro fuel2 stream h1 h2
    obtain ⟨g, rfl⟩ : ∃ g, fuel2 = g + 1 := ⟨fuel2 - 1, by omega⟩
    rw [fgets_lines, fgets_lines]
    cases hg : fgets 256 stream with
    | none => rfl
    | some br =>
      obtain ⟨buf, rest⟩ := br
      have hlt := fgets_rest_lt stream buf rest hg
      simp only []
      rw [ih g rest (by omega) (by omega)]

/-- On a file of short lines the loop reads exactly the lines of the file. -/
theorem fgets_lines_file_content (lines : List (List Char)) (last : List Char)
    (hl : ∀ l ∈ lines, NL ∉ l ∧ l.length < 255) (hlast : NL ∉ last ∧ last.length < 255) :
    ∀ fuel : Nat, (file_content lines last).length < fuel →
      fgets_lines fuel (file_content lines last) = seen_lines lines last := by
  unfold seen_lines
  induction lines with
  | nil =>
    intro fuel hf
    obtain ⟨f, rfl⟩ : ∃ f, fuel = f + 1 := ⟨fuel - 1, by omega⟩
    by_cases hempty : last = []
    · subst hempty
      simp [file_content, file_lines, fgets_lines, fgets]
    · simp only [file_content] at hf ⊢
      have hpos : 0 < last.length := List.length_pos.2 hempty
      obtain ⟨g, rfl⟩ : ∃ g, f = g + 1 := ⟨f - 1, by omega⟩
      rw [fgets_lines, fgets_last last hempty hlast.1 hlast.2]
      simp [strip_newline_last last hlast.1, file_lines, hempty, fgets_lines, fgets]
  | cons l ls ih =>
    intro fuel hf
    have hl1 := hl l (List.mem_cons_self _ _)
    have ih2 := ih (fun x hx => hl x (List.mem_cons_of_mem _ hx))
    rw [file_content_length_cons] at hf
    obtain ⟨f, rfl⟩ : ∃ f, fuel = f + 1 := ⟨fuel - 1, by omega⟩
    rw [file_lines_cons, List.map_cons]
    simp only [file_content]
    rw [fgets_lines, fgets_line l _ hl1.1 hl1.2]
    simp only [strip_newline_line l hl1.1]
    rw [ih2 f (by omega)]

theorem mem_digit_chars_of_isdigit (x : Char) (h : isdigit x = true) : x ∈ digit_chars := by
  obtain ⟨h1, h2⟩ := (isdigit_iff x).1 h
  have hx : x = Char.ofNat x.toNat := (Char.ofNat_toNat x).symm
  generalize x.toNat = n at h1 h2 hx
  subst hx
  interval_cases n <;> decide

theorem isdigit_of_mem_digit_chars (x : Char) (h : x ∈ digit_chars) : isdigit x = true := by
  simp only [digit_chars, List.mem_cons, List.mem_singleton, List.not_mem_nil, or_false] at h
  rcases h with rfl | rfl | rfl | rfl | rfl | rfl | rfl | rfl | rfl | rfl <;> decide

theorem length_other_digits (x : Char) (h : isdigit x = true) :
    (digit_chars.filter (fun d => d != x)).length = 9 := by
  have hx := mem_digit_chars_of_isdigit x h
  simp only [digit_chars, List.mem_cons, List.mem_singleton, List.not_mem_nil, or_false] at hx
  rcases hx with rfl | rfl | rfl | rfl | rfl | rfl | rfl | rfl | rfl | rfl <;> decide

theorem toNat_ne_of_ne (x y : Char) (h : x ≠ y) : x.toNat ≠ y.toNat := by
  intro h2
  apply h
  rw [← Char.ofNat_toNat x, ← Char.ofNat_toNat y, h2]

theorem digit_at_set (c : CStr) (i j : Nat) (d : Char) (hi : i < c.length) :
    digit_at (c.set i d) j
      = if j = i then ((d.toNat : Int) - (('0' : Char).toNat : Int)) else digit_at c j := by
  unfold digit_at char_at
  rw [List.getD_eq_getElem?_getD, List.getD_eq_getElem?_getD, List.getElem?_set]
  by_cases h : i = j
  · subst h
    simp [hi]
  · have h2 : ¬ (j = i) := fun e => h e.symm
    simp [h, h2]

theorem length_flatMap_const {α β : Type} (f : α → List β) (k : Nat) (xs : List α)
    (h : ∀ x ∈ xs, (f x).length = k) : (xs.flatMap f).length = k * xs.length := by
  induction xs with
  | nil => simp
  | cons x xs ih =>
    rw [List.flatMap_cons, List.length_append, h x (List.mem_cons_self _ _),
      ih (fun y hy => h y (List.mem_cons_of_mem _ hy)), List.length_cons]
    ring

theorem isdigit_set (c : CStr) (i : Nat) (d : Char) (hdig : ∀ x ∈ c, isdigit x = true)
    (hd : isdigit d = true) : ∀ x ∈ c.set i d, isdigit x = true := by
  intro x hx
  rcases List.mem_or_eq_of_mem_set hx with h | h
  · exact hdig x h
  · rw [h]; exact hd

/-- Replacing one digit at an index in `2..18` by a different digit changes the computed
check digit: the weights 3 and 1 are invertible modulo 10. -/
theorem check_digit_changes (c : CStr) (hlen : c.length = 20)
    (hdig : ∀ x ∈ c, isdigit x = true) (i : Nat) (hi2 : 2 ≤ i) (hi18 : i ≤ 18) (d : Char)
    (hd : isdigit d = true) (hne : d ≠ char_at c i) :
    check_digit_calculated (c.set i d) ≠ check_digit_calculated c := by
  have hlen2 : (c.set i d).length = 20 := by rw [List.length_set, hlen]
  rw [check_digit_calculated_eq _ (check_sum_nonneg _ hlen2 (isdigit_set c i d hdig hd)),
    check_digit_calculated_eq _ (check_sum_nonneg _ hlen hdig), check_sum_eq, check_sum_eq]
  simp only [digit_at_set c i _ d (by omega)]
  have h0 : ('0' : Char).toNat = 48 := by decide
  have hd1 := (isdigit_iff d).1 hd
  have hci := (isdigit_iff _).1 (hdig _ (char_at_mem c i (by omega)))
  have hne2 : d.toNat ≠ (char_at c i).toNat := toNat_ne_of_ne _ _ hne
  have hdi : digit_at c i = ((char_at c i).toNat : Int) - 48 := by
    unfold digit_at; rw [h0]; rfl
  rw [h0]
  generalize (char_at c i).toNat = a at hci hne2 hdi
  generalize d.toNat = b at hd1 hne2
  interval_cases i <;> simp only [hdi] <;> norm_num <;> omega

/-- Replacing the character at index 19 leaves the computed check digit unchanged: it is
computed from indices `2..18` only. -/
theorem check_digit_unchanged_at_19 (c : CStr) (hlen : c.length = 20) (d : Char) :
    check_digit_calculated (c.set 19 d) = check_digit_calculated c := by
  unfold check_digit_calculated
  rw [check_sum_eq, check_sum_eq]
  simp [digit_at_set c 19 _ d (by omega)]

theorem is_valid_sscc_eq_one_shape (c : CStr) (h : EtiquetasSscc.is_valid_sscc c = 1) :
    c.length = 20 ∧ ∀ x ∈ c, isdigit x = true := by
  by_cases hlen : c.length = 20
  · refine ⟨hlen, fun x hx => ?_⟩
    by_contra hnd
    have hnd2 : isdigit x = false := by simpa using hnd
    have := has_non_digit_eq_true c hlen x hx hnd2
    simp [EtiquetasSscc.is_valid_sscc, strlen, hlen, this] at h
  · simp [EtiquetasSscc.is_valid_sscc, strlen, hlen] at h

theorem length_substitutions_at (c : CStr) (hlen : c.length = 20)
    (hdig : ∀ x ∈ c, isdigit x = true) (is : List Nat) (his : ∀ i ∈ is, i < 20) :
    (is.flatMap
      (fun i => (digit_chars.filter (fun d => d != char_at c i)).map
        (fun d => (i, d)))).length = 9 * is.length := by
  apply length_flatMap_const
  intro i hi
  rw [List.length_map]
  exact length_other_digits _ (hdig _ (char_at_mem c i (by have := his i hi; omega)))

/-- C9: for every accepted code, of the 162 substitutions of one digit at an index in
`2..19` by a different digit, 153 change the check digit computed from indices `2..18`
(all but the nine at index 19), which is at least 90 % of them. -/
theorem single_digit_error_detection (c : CStr) (h : EtiquetasSscc.is_valid_sscc c = 1) :
    EtiquetasSsccArticulo.is_valid_sscc c = 1 ∧
    (substitutions c).length = 18 * 9 ∧
    (detected_substitutions c).length = 153 ∧
    9 * (substitutions c).length ≤ 10 * (detected_substitutions c).length := by
  obtain ⟨hlen, hdig⟩ := is_valid_sscc_eq_one_shape c h
  have hsub : (substitutions c).length = 18 * 9 := by
    unfold substitutions
    rw [length_substitutions_at c hlen hdig _ (fun i hi => by
      have := List.mem_range'_1.1 hi; omega)]
    simp
  have hdet : (detected_substitutions c).length = 153 := by
    unfold detected_substitutions substitutions
    have hr : List.range' 2 18 = List.range' 2 17 ++ [19] := by decide
    rw [hr, List.flatMap_append, List.filter_append, List.length_append]
    have h1 : List.filter
        (fun p => check_digit_calculated (substitute c p) != check_digit_calculated c)
        ((List.range' 2 17).flatMap
          (fun i => (digit_chars.filter (fun d => d != char_at c i)).map (fun d => (i, d))))
        = (List.range' 2 17).flatMap
          (fun i => (digit_chars.filter (fun d => d != char_at c i)).map
            (fun d => (i, d))) := by
      rw [List.filter_eq_self]
      rintro ⟨i, d⟩ hp
      simp only [List.mem_flatMap, List.mem_map, List.mem_filter, Prod.mk.injEq] at hp
      obtain ⟨j, hj, d2, ⟨hd2, hne⟩, rfl, rfl⟩ := hp
      have hj2 := List.mem_range'_1.1 hj
      have hne2 : d2 ≠ char_at c j := by simpa using hne
      have := check_digit_changes c hlen hdig j (by omega) (by omega) d2
        (isdigit_of_mem_digit_chars d2 hd2) hne2
      simpa [substitute] using this
    have h2 : List.filter
        (fun p => check_digit_calculated (substitute c p) != check_digit_calculated c)
        ([19].flatMap
          (fun i => (digit_chars.filter (fun d => d != char_at c i)).map (fun d => (i, d))))
        = [] := by
      rw [List.filter_eq_nil_iff]
      rintro ⟨i, d⟩ hp
      simp only [List.mem_flatMap, List.mem_map, List.mem_filter, Prod.mk.injEq,
        List.mem_singleton] at hp
      obtain ⟨j, rfl, d2, _, rfl, rfl⟩ := hp
      simp [substitute, check_digit_unchanged_at_19 c hlen]
    rw [h1, h2, length_substitutions_at c hlen hdig _ (fun i hi => by
      have := List.mem_range'_1.1 hi; omega)]
    simp
  exact ⟨h, hsub, hdet, by rw [hsub, hdet]; decide⟩

/-- Witness for C9: `34012345678901234560` is accepted, and 153 of its 162 substitutions
are detected. -/
theorem single_digit_error_detection_witness :
    EtiquetasSscc.is_valid_sscc sscc_ok = 1 ∧
    (substitutions sscc_ok).length = 18 * 9 ∧
    (detected_substitutions sscc_ok).length = 153 ∧
    9 * (substitutions sscc_ok).length ≤ 10 * (detected_substitutions sscc_ok).length :=
  ⟨by decide, (single_digit_error_detection sscc_ok (by decide)).2⟩

/-- C5, the code at the failing input: the line made of a comma followed by a valid code
has an empty first field, yet `strtok` skips the leading comma, `is_valid_sscc` is applied
to the second field and a page is added for it; only a line with no character other than
commas is rejected as an invalid CSV line. -/
theorem articulo_leading_comma_line_yields_label (tw : CStr → ℚ) :
    (strtok (',' :: sscc_ok) [',']).1 = some sscc_ok ∧
    EtiquetasSsccArticulo.line_outcome tw (',' :: sscc_ok)
      = .ok (EtiquetasSsccArticulo.create_label tw sscc_ok none none) ∧
    (EtiquetasSsccArticulo.process_csv_and_generate_labels tw
        (.ok (',' :: sscc_ok ++ [NL])) World.empty).map (fun w => (w.pdf.length, w.stderr))
      = some (1, []) ∧
    EtiquetasSsccArticulo.line_outcome tw []
      = .error ("Línea CSV inválida: ".toList ++ [NL]) ∧
    EtiquetasSsccArticulo.line_outcome tw [',']
      = .error ("Línea CSV inválida: ,".toList ++ [NL]) := by
  refine ⟨by decide, rfl, rfl, rfl, rfl⟩

/-- C6, the code at the failing input: on a line `c,,i` with an empty pallet field the
second `strtok` skips both commas, so the pointer `palet` receives the item text and
`articulo` is NULL; the three-field and the one-field line are split by position. -/
theorem articulo_empty_pallet_field_takes_item (tw : CStr → ℚ) :
    EtiquetasSsccArticulo.split_line "34012345678901234560,,Widget A".toList
      = (some sscc_ok, some "Widget A".toList, none) ∧
    EtiquetasSsccArticulo.line_outcome tw "34012345678901234560,,Widget A".toList
      = .ok (EtiquetasSsccArticulo.create_label tw sscc_ok (some "Widget A".toList) none) ∧
    EtiquetasSsccArticulo.split_line "34012345678901234560,PAL001,Widget A".toList
      = (some sscc_ok, some "PAL001".toList, some "Widget A".toList) ∧
    EtiquetasSsccArticulo.split_line "34012345678901234560".toList
      = (some sscc_ok, none, none) := by
  refine ⟨by decide, rfl, by decide, by decide⟩
